import Mathlib

/-!
Verification development for the Bitaxe hashrate benchmark tool.

The definitions below are a shallow embedding of the Python sources:
`src/constants.py`, `src/services/benchmark_service.py`,
`src/services/results_service.py` and the entry script
`bitaxe_hashrate_benchmark.py`.  Machine floats are modelled by `Rat`,
Python `None` by `Option`, and a raised `TypeError` / `KeyError` by an
`Except` error value.  Definitions whose names match the Python
identifiers are direct translations of the corresponding functions.
-/

namespace Bitaxe

/-! ### Constants (src/constants.py) -/

def VOLTAGE_INCREMENT : Int := 20
def FREQUENCY_INCREMENT : Int := 25
def BENCHMARK_TIME : Nat := 150
def SAMPLE_INTERVAL : Nat := 15
def MAX_TEMP : Rat := 65
def MAX_ALLOWED_VOLTAGE : Int := 1400
def MAX_ALLOWED_FREQUENCY : Int := 1250
def MAX_VR_TEMP : Rat := 75
def MIN_INPUT_VOLTAGE : Rat := 4800
def MAX_INPUT_VOLTAGE : Rat := 5500
def MAX_POWER : Rat := 45
def MIN_ALLOWED_VOLTAGE : Int := 1150
def MIN_ALLOWED_FREQUENCY : Int := 525

/-- `SMALL_CORE_COUNT` as defined at module level in src/constants.py line 24:
the literal value is `None`. -/
def constants_SMALL_CORE_COUNT : Option Int := none

/-- `ASIC_COUNT` as defined at module level in src/constants.py line 25:
the literal value is `None`. -/
def constants_ASIC_COUNT : Option Int := none

/-! ### Telemetry samples -/

/-- One system-info reading, as consumed by `BenchmarkService`.
Fields absent from the device JSON are `none` (Python `dict.get` returns
`None`). -/
structure Info where
  temp : Option Rat
  vrTemp : Option Rat
  voltage : Option Rat
  hashRate : Option Rat
  power : Option Rat
deriving DecidableEq, Repr

/-- A Python-level runtime fault escaping a function. -/
inductive PyFault where
  | typeError
  | keyError
deriving DecidableEq, Repr

/-- Result of `BenchmarkService._validate`.  The Python method returns
`(True, (temp, vr_temp, voltage))` on success and `(False, None)` after
printing the failure reason via `_exit`; `invalid r` records the reason
passed to `_exit`.  `typeError` models the `TypeError` raised by
`voltage < MIN_INPUT_VOLTAGE` when `info.get("voltage")` is `None`. -/
inductive ValidateResult where
  | valid (temp : Rat) (vrTemp : Option Rat) (voltage : Rat)
  | invalid (reason : String)
  | typeError
deriving DecidableEq, Repr

/-- The voltage checks at the end of `_validate`
(src/services/benchmark_service.py lines 122-130).  The comparison
`voltage < MIN_INPUT_VOLTAGE` is unguarded, so a missing voltage raises
`TypeError`. -/
def validate_voltage (temp : Rat) (vrTemp : Option Rat) (voltage : Option Rat) :
    ValidateResult :=
  match voltage with
  | none => .typeError
  | some v =>
    if v < MIN_INPUT_VOLTAGE then .invalid "VOLTAGE_LOW"
    else if MAX_INPUT_VOLTAGE < v then .invalid "VOLTAGE_HIGH"
    else .valid temp vrTemp v

/-- `BenchmarkService._validate` (src/services/benchmark_service.py
lines 99-132). -/
def validate (info : Info) : ValidateResult :=
  match info.temp with
  | none => .invalid "TEMP_MISSING"
  | some temp =>
    if temp < 5 then .invalid "TEMP_TOO_LOW"
    else if MAX_TEMP ≤ temp then .invalid "TEMP_HIGH"
    else
      match info.vrTemp with
      | some vrTemp =>
        if MAX_VR_TEMP ≤ vrTemp then .invalid "VR_TEMP_HIGH"
        else validate_voltage temp (some vrTemp) info.voltage
      | none => validate_voltage temp none info.voltage

/-! ### Specification-side precedence list (claim C6).
The claimed precedence order of the safety checks, written directly from
the words of the specification, to be compared with `validate`. -/

/-- The six safety checks in the order claimed by the specification,
each paired with its abort reason.  `v` is the input voltage of the
sample (the claim compares voltage thresholds only on samples that carry
a voltage). -/
def spec_checks (info : Info) (v : Rat) : List (Bool × String) :=
  [(info.temp.isNone, "TEMP_MISSING"),
   (info.temp.elim false (fun t => decide (t < 5)), "TEMP_TOO_LOW"),
   (info.temp.elim false (fun t => decide (MAX_TEMP ≤ t)), "TEMP_HIGH"),
   (info.vrTemp.elim false (fun w => decide (MAX_VR_TEMP ≤ w)), "VR_TEMP_HIGH"),
   (decide (v < MIN_INPUT_VOLTAGE), "VOLTAGE_LOW"),
   (decide (MAX_INPUT_VOLTAGE < v), "VOLTAGE_HIGH")]

/-- The earliest violated check of `spec_checks`, if any. -/
def spec_first_violation (info : Info) (v : Rat) : Option String :=
  ((spec_checks info v).find? (fun c => c.1)).map (fun c => c.2)

/-- C6: sample safety validation checks thresholds in the claimed fixed
precedence order; for every sample (carrying an input voltage) that
violates one or more thresholds, the reason reported by `_validate` is
the earliest violated one, and a sample violating none is accepted. -/
theorem validate_follows_spec_precedence (info : Info) (v : Rat)
    (hv : info.voltage = some v) :
    (∀ r, spec_first_violation info v = some r → validate info = .invalid r) ∧
    (spec_first_violation info v = none →
      ∃ t, info.temp = some t ∧ validate info = .valid t info.vrTemp v) := by
  obtain ⟨t?, vr?, volt?, h?, p?⟩ := info
  simp only [Info.voltage] at hv
  subst hv
  cases t? with
  | none =>
    simp [spec_first_violation, spec_checks, validate, List.find?]
  | some t =>
    cases vr? with
    | none =>
      constructor
      · intro r hr
        simp only [spec_first_violation, spec_checks, List.find?, Option.elim,
          Option.isNone] at hr
        simp only [validate, validate_voltage]
        by_cases h1 : t < 5
        · simp [h1] at hr ⊢; simp [hr.symm]
        · by_cases h2 : MAX_TEMP ≤ t
          · simp [h1, h2] at hr ⊢; simp [hr.symm]
          · by_cases h3 : v < MIN_INPUT_VOLTAGE
            · simp [h1, h2, h3] at hr ⊢; simp [hr.symm]
            · by_cases h4 : MAX_INPUT_VOLTAGE < v
              · simp [h1, h2, h3, h4] at hr ⊢; simp [hr.symm]
              · simp [h1, h2, h3, h4] at hr
      · intro hnone
        simp only [spec_first_violation, spec_checks, List.find?, Option.elim,
          Option.isNone] at hnone
        by_cases h1 : t < 5
        · simp [h1] at hnone
        · by_cases h2 : MAX_TEMP ≤ t
          · simp [h1, h2] at hnone
          · by_cases h3 : v < MIN_INPUT_VOLTAGE
            · simp [h1, h2, h3] at hnone
            · by_cases h4 : MAX_INPUT_VOLTAGE < v
              · simp [h1, h2, h3, h4] at hnone
              · exact ⟨t, rfl, by simp [validate, validate_voltage, h1, h2, h3, h4]⟩
    | some w =>
      constructor
      · intro r hr
        simp only [spec_first_violation, spec_checks, List.find?, Option.elim,
          Option.isNone] at hr
        simp only [validate, validate_voltage]
        by_cases h1 : t < 5
        · simp [h1] at hr ⊢; simp [hr.symm]
        · by_cases h2 : MAX_TEMP ≤ t
          · simp [h1, h2] at hr ⊢; simp [hr.symm]
          · by_cases hw : MAX_VR_TEMP ≤ w
            · simp [h1, h2, hw] at hr ⊢; simp [hr.symm]
            · by_cases h3 : v < MIN_INPUT_VOLTAGE
              · simp [h1, h2, hw, h3] at hr ⊢; simp [hr.symm]
              · by_cases h4 : MAX_INPUT_VOLTAGE < v
                · simp [h1, h2, hw, h3, h4] at hr ⊢; simp [hr.symm]
                · simp [h1, h2, hw, h3, h4] at hr
      · intro hnone
        simp only [spec_first_violation, spec_checks, List.find?, Option.elim,
          Option.isNone] at hnone
        by_cases h1 : t < 5
        · simp [h1] at hnone
        · by_cases h2 : MAX_TEMP ≤ t
          · simp [h1, h2] at hnone
          · by_cases hw : MAX_VR_TEMP ≤ w
            · simp [h1, h2, hw] at hnone
            · by_cases h3 : v < MIN_INPUT_VOLTAGE
              · simp [h1, h2, hw, h3] at hnone
              · by_cases h4 : MAX_INPUT_VOLTAGE < v
                · simp [h1, h2, hw, h3, h4] at hnone
                · exact ⟨t, rfl, by simp [validate, validate_voltage, h1, h2, hw, h3, h4]⟩

/-- Witness for C6: a sample at 70 degrees with a 4000 mV input voltage
violates both a temperature threshold and a voltage threshold, and the
reported reason is the temperature one. -/
theorem validate_follows_spec_precedence_witness :
    validate ⟨some 70, none, some 4000, some 500, some 10⟩ = .invalid "TEMP_HIGH" :=
  (validate_follows_spec_precedence ⟨some 70, none, some 4000, some 500, some 10⟩
    4000 rfl).1 "TEMP_HIGH" (by decide)

/-- C10: on a sample whose temperature is in the accepted band and whose
VR temperature (if present) is below the limit, but whose input voltage
field is absent, `_validate` raises `TypeError` from the unguarded
comparison instead of returning an abort verdict. -/
theorem validate_missing_voltage_typeerror (info : Info) (t : Rat)
    (ht : info.temp = some t) (h5 : 5 ≤ t) (hmax : t < MAX_TEMP)
    (hvr : ∀ w, info.vrTemp = some w → w < MAX_VR_TEMP)
    (hv : info.voltage = none) :
    validate info = .typeError := by
  obtain ⟨t?, vr?, volt?, h?, p?⟩ := info
  simp only [Info.temp] at ht
  simp only [Info.voltage] at hv
  subst ht; subst hv
  cases vr? with
  | none =>
    simp [validate, validate_voltage, not_lt.mpr h5, not_le.mpr hmax]
  | some w =>
    have hw := hvr w rfl
    simp [validate, validate_voltage, not_lt.mpr h5, not_le.mpr hmax, not_le.mpr hw]

/-- Witness for C10: the concrete sample with temperature 60, VR
temperature 50 and no voltage field makes `_validate` raise. -/
theorem validate_missing_voltage_typeerror_witness :
    validate ⟨some 60, some 50, none, some 500, some 10⟩ = .typeError :=
  validate_missing_voltage_typeerror ⟨some 60, some 50, none, some 500, some 10⟩
    60 rfl (by norm_num) (by norm_num [MAX_TEMP])
    (by intro w hw; simp only [Option.some.injEq] at hw; norm_num [MAX_VR_TEMP, ← hw])
    rfl

/-! ### Trimmed statistics (src/services/benchmark_service.py, `_calculate_results`) -/

/-- Python `sorted` on a list of numbers (a stable ascending sort). -/
def sortedAsc (xs : List Rat) : List Rat := xs.mergeSort (fun a b => decide (a ≤ b))

/-- The trimmed average hash rate of `_calculate_results` line 191:
`sum(sorted(hash_rates)[3:-3]) / max(1, len(hash_rates) - 6)`.
The slice `[3:-3]` keeps the elements at sorted positions `3 .. n-4`,
which is `(drop 3).take (n - 6)` under truncated Nat subtraction. -/
def avg_hash_of (hash_rates : List Rat) : Rat :=
  (((sortedAsc hash_rates).drop 3).take (hash_rates.length - 6)).sum /
    ((max 1 (hash_rates.length - 6) : Nat) : Rat)

/-- Specification-side trimming for claim C7: sort the samples, remove the
3 smallest and then the 3 largest values. -/
def spec_trimmed (xs : List Rat) : List Rat :=
  ((sortedAsc xs).drop 3).dropLast.dropLast.dropLast

theorem dropLast_three_eq_take {α : Type} (l : List α) :
    l.dropLast.dropLast.dropLast = l.take (l.length - 3) := by
  simp only [List.dropLast_eq_take, List.length_take, List.take_take]
  congr 1
  omega

/-- C7: the average hash rate is the trimmed mean over the samples with
the 3 smallest and 3 largest removed, divided by `max 1 (n - 6)`; for a
window of exactly 10 readings it is the plain mean of the middle 4
sorted values, and on the constant window of ten 100s it is 100. -/
theorem avg_hash_is_spec_trimmed_mean :
    (∀ xs : List Rat,
      avg_hash_of xs = (spec_trimmed xs).sum / ((max 1 (xs.length - 6) : Nat) : Rat)) ∧
    (∀ xs : List Rat, xs.length = 10 →
      avg_hash_of xs = (((sortedAsc xs).drop 3).take 4).sum / 4) ∧
    avg_hash_of (List.replicate 10 (100 : Rat)) = 100 := by
  refine ⟨?_, ?_, ?_⟩
  · intro xs
    unfold avg_hash_of spec_trimmed
    rw [dropLast_three_eq_take]
    congr 2
    simp [sortedAsc]
    omega
  · intro xs h
    unfold avg_hash_of
    rw [h]
    norm_num
  · have hs : sortedAsc (List.replicate 10 (100 : Rat)) = List.replicate 10 (100 : Rat) :=
      List.mergeSort_of_sorted (by simp)
    unfold avg_hash_of
    rw [hs]
    norm_num [List.sum_replicate]

/-- Witness for C7: the length-10 clause applied to the constant window. -/
theorem avg_hash_is_spec_trimmed_mean_witness :
    avg_hash_of (List.replicate 10 (100 : Rat)) =
      (((sortedAsc (List.replicate 10 (100 : Rat))).drop 3).take 4).sum / 4 :=
  avg_hash_is_spec_trimmed_mean.2.1 (List.replicate 10 (100 : Rat)) (by decide)

/-! ### Benchmark iteration (src/services/benchmark_service.py) -/

/-- The sample dictionary built by `_collect_samples`. -/
structure Samples where
  hash_rates : List Rat
  temps : List Rat
  powers : List Rat
  vr_temps : List Rat
deriving DecidableEq, Repr

def init_samples : Samples := ⟨[], [], [], []⟩

/-- The six-component tuple returned by `benchmark_iteration`:
`(avg_hash, avg_temp, efficiency, within_tolerance, avg_vr, reason)`. -/
structure IterationResult where
  avgHashrate : Option Rat
  avgTemp : Option Rat
  efficiencyJth : Option Rat
  hashrateOk : Bool
  avgVrTemp : Option Rat
  errorReason : Option String
deriving DecidableEq, Repr

/-- `BenchmarkService._exit`: prints the message and returns the failure
tuple `(None, None, None, False, None, reason)`. -/
def exit_tuple (reason : String) : IterationResult :=
  ⟨none, none, none, false, none, some reason⟩

/-- `BenchmarkService._process` (lines 134-153): rejects the sample when
hash rate or power is missing or power exceeds `MAX_POWER`; otherwise
appends hash rate, temperature, power and the optional VR temperature.
Reading `info["temp"]` would raise `KeyError` if absent. -/
def process (info : Info) (samples : Samples) : Except PyFault (Option Samples) :=
  match info.hashRate, info.power with
  | some hash_rate, some power =>
    if MAX_POWER < power then .ok none
    else
      match info.temp with
      | some t =>
        .ok (some { hash_rates := samples.hash_rates ++ [hash_rate],
                    temps := samples.temps ++ [t],
                    powers := samples.powers ++ [power],
                    vr_temps := samples.vr_temps ++
                      (match info.vrTemp with | some w => [w] | none => []) })
      | none => .error .keyError
  | _, _ => .ok none

/-- `BenchmarkService._calculate_results` (lines 175-213).  The float
literal `0.94` is the rational `94 / 100`. -/
def calculate_results (samples : Samples) (expected : Rat) : IterationResult :=
  if samples.hash_rates = [] ∨ samples.temps = [] ∨ samples.powers = [] then
    exit_tuple "NO_DATA_COLLECTED"
  else
    let avg_hash := avg_hash_of samples.hash_rates
    let avg_temp := ((sortedAsc samples.temps).drop 6).sum /
      ((max 1 (samples.temps.length - 6) : Nat) : Rat)
    let avg_power := samples.powers.sum / (samples.powers.length : Rat)
    let avg_vr : Option Rat :=
      if samples.vr_temps = [] then none
      else
        if (sortedAsc samples.vr_temps).drop 6 = [] then none
        else some (((sortedAsc samples.vr_temps).drop 6).sum /
          (((sortedAsc samples.vr_temps).drop 6).length : Rat))
    if avg_hash ≤ 0 then exit_tuple "ZERO_HASH"
    else
      { avgHashrate := some avg_hash,
        avgTemp := some avg_temp,
        efficiencyJth := some (avg_power / (avg_hash / 1000)),
        hashrateOk := decide (expected * (94 / 100) ≤ avg_hash),
        avgVrTemp := avg_vr,
        errorReason := none }

/-- The names `SMALL_CORE_COUNT` and `ASIC_COUNT` as seen inside the
module src/services/benchmark_service.py: bound by the
`from src.constants import` at module import time to the values in
src/constants.py (both `None`) and never rebound afterwards
(`fetch_default_settings` in the entry script rebinds only the entry
script module globals, not these). -/
def benchmark_module_SMALL_CORE_COUNT : Option Int := constants_SMALL_CORE_COUNT

/-- See `benchmark_module_SMALL_CORE_COUNT`. -/
def benchmark_module_ASIC_COUNT : Option Int := constants_ASIC_COUNT

/-- `self.expected_hashrate` (lines 26-28):
`lambda freq: freq * ((SMALL_CORE_COUNT * ASIC_COUNT) / 1000)` where the
two names resolve to the benchmark_service module globals at call time.
Multiplying `None * None` raises `TypeError`. -/
def expected_hashrate (freq : Rat) : Except PyFault Rat :=
  match benchmark_module_SMALL_CORE_COUNT, benchmark_module_ASIC_COUNT with
  | some s, some a => .ok (freq * (((s * a : Int) : Rat) / 1000))
  | _, _ => .error .typeError

/-- `self.total_samples = BENCHMARK_TIME // SAMPLE_INTERVAL` (line 25). -/
def total_samples : Nat := BENCHMARK_TIME / SAMPLE_INTERVAL

/-- The loop body of `_collect_samples` (lines 77-97), recursing over the
remaining sample count; `oracle i` is the value of the i-th call to
`get_system_info` (with `none` for exhausted retries). -/
def collect_from (oracle : Nat → Option Info) :
    Nat → Nat → Samples → Except PyFault (Option Samples)
  | _, 0, acc => .ok (some acc)
  | i, n + 1, acc =>
    match oracle i with
    | none => .ok none
    | some info =>
      match validate info with
      | .typeError => .error .typeError
      | .invalid _ => .ok none
      | .valid _ _ _ =>
        match process info acc with
        | .error e => .error e
        | .ok none => .ok none
        | .ok (some acc2) => collect_from oracle (i + 1) n acc2

/-- `BenchmarkService._collect_samples`. -/
def collect_samples (oracle : Nat → Option Info) : Except PyFault (Option Samples) :=
  collect_from oracle 0 total_samples init_samples

/-- `BenchmarkService.benchmark_iteration` (lines 39-54). -/
def benchmark_iteration (oracle : Nat → Option Info) (frequency : Rat) :
    Except PyFault IterationResult :=
  match collect_samples oracle with
  | .error e => .error e
  | .ok none => .ok (exit_tuple "NO_DATA")
  | .ok (some samples) =>
    match expected_hashrate frequency with
    | .error e => .error e
    | .ok expected => .ok (calculate_results samples expected)

/-- C3: the expected-hashrate computation always raises `TypeError`
(evaluated at the failing frequency 525 and at every frequency): the
values it reads are the benchmark_service module globals, which stay
`None` because the startup fetch rebinds only the entry script globals. -/
theorem expected_hashrate_always_raises :
    expected_hashrate 525 = .error .typeError ∧
    ∀ freq : Rat, expected_hashrate freq = .error .typeError :=
  ⟨rfl, fun _ => rfl⟩

/-! ### Abort behaviour of `benchmark_iteration` (claim C4) -/

/-- A telemetry sample that passes both the safety validation and the
data-quality gate of `_process`. -/
def sample_accepted (info : Info) : Prop :=
  (∃ t vr v, validate info = .valid t vr v) ∧
  (∃ hr, info.hashRate = some hr) ∧
  (∃ p, info.power = some p ∧ p ≤ MAX_POWER)

/-- The data-quality gate of `_process` rejects the sample. -/
def process_rejects (info : Info) : Prop :=
  info.hashRate = none ∨ info.power = none ∨ ∃ p, info.power = some p ∧ MAX_POWER < p

/-- One `get_system_info` outcome that aborts the sampling window:
exhausted retries (`none`), a safety-threshold violation, or a rejected
sample. -/
def step_aborts (o : Option Info) : Prop :=
  o = none ∨
  (∃ info r, o = some info ∧ validate info = .invalid r) ∨
  (∃ info t vr v, o = some info ∧ validate info = .valid t vr v ∧ process_rejects info)

theorem validate_valid_fields (info : Info) (t v : Rat) (vr : Option Rat)
    (h : validate info = .valid t vr v) :
    info.temp = some t ∧ info.vrTemp = vr ∧ info.voltage = some v := by
  obtain ⟨t?, vr?, volt?, hr?, pw?⟩ := info
  cases t? with
  | none => simp [validate] at h
  | some t0 =>
    cases vr? with
    | none =>
      cases volt? with
      | none =>
        simp only [validate, validate_voltage] at h
        split_ifs at h
      | some v0 =>
        simp only [validate, validate_voltage] at h
        split_ifs at h
        simp_all
    | some w =>
      cases volt? with
      | none =>
        simp only [validate, validate_voltage] at h
        split_ifs at h
      | some v0 =>
        simp only [validate, validate_voltage] at h
        split_ifs at h
        simp_all

theorem process_of_accepted (info : Info) (acc : Samples)
    (h : sample_accepted info) :
    ∃ acc2, process info acc = .ok (some acc2) := by
  obtain ⟨⟨t, vr, v, hv⟩, ⟨hr, hh⟩, ⟨p, hp, hple⟩⟩ := h
  obtain ⟨htemp, -, -⟩ := validate_valid_fields info t v vr hv
  simp only [process, hh, hp, htemp]
  rw [if_neg (not_lt.mpr hple)]
  exact ⟨_, rfl⟩

theorem process_of_rejects (info : Info) (acc : Samples)
    (h : process_rejects info) :
    process info acc = .ok none := by
  rcases h with h | h | ⟨p, hp, hpgt⟩
  · cases hpw : info.power <;> simp [process, h, hpw]
  · cases hhr : info.hashRate <;> simp [process, h, hhr]
  · cases hhr : info.hashRate <;> simp [process, hhr, hp, hpgt]

theorem collect_from_aborts (oracle : Nat → Option Info) :
    ∀ (k start count : Nat) (acc : Samples), k < count →
    (∀ j, j < k → ∃ info, oracle (start + j) = some info ∧ sample_accepted info) →
    step_aborts (oracle (start + k)) →
    collect_from oracle start count acc = .ok none := by
  intro k
  induction k with
  | zero =>
    intro start count acc hk hgood hbad
    obtain ⟨c, rfl⟩ : ∃ c, count = c + 1 := ⟨count - 1, by omega⟩
    simp only [Nat.add_zero] at hbad
    rcases hbad with hnone | ⟨info, r, ho, hv⟩ | ⟨info, t, vr, v, ho, hv, hrej⟩
    · simp [collect_from, hnone]
    · simp [collect_from, ho, hv]
    · simp [collect_from, ho, hv, process_of_rejects info acc hrej]
  | succ k ih =>
    intro start count acc hk hgood hbad
    obtain ⟨c, rfl⟩ : ∃ c, count = c + 1 := ⟨count - 1, by omega⟩
    obtain ⟨info, ho, hacc⟩ := hgood 0 (Nat.succ_pos k)
    simp only [Nat.add_zero] at ho
    obtain ⟨t, vr, v, hv⟩ := hacc.1
    obtain ⟨acc2, hproc⟩ := process_of_accepted info acc hacc
    have hstep : collect_from oracle start (c + 1) acc =
        collect_from oracle (start + 1) c acc2 := by
      simp [collect_from, ho, hv, hproc]
    rw [hstep]
    refine ih (start + 1) c acc2 (by omega) ?_ ?_
    · intro j hj
      have hg := hgood (j + 1) (by omega)
      rwa [show start + (j + 1) = start + 1 + j by omega] at hg
    · rwa [show start + (k + 1) = start + 1 + k by omega] at hbad

/-- C4 (amended): for every sampling window aborted by a safety-threshold
violation, system-info failure or rejected sample at step `k` (all
earlier samples accepted), `benchmark_iteration` returns a verdict whose
passed field is false, whose numeric fields are all absent and whose
reason field is the generic `"NO_DATA"`; no exception propagates. -/
theorem benchmark_iteration_abort_verdict (oracle : Nat → Option Info) (freq : Rat)
    (k : Nat) (hk : k < total_samples)
    (hgood : ∀ j, j < k → ∃ info, oracle j = some info ∧ sample_accepted info)
    (hbad : step_aborts (oracle k)) :
    benchmark_iteration oracle freq = .ok ⟨none, none, none, false, none, some "NO_DATA"⟩ := by
  have h := collect_from_aborts oracle k 0 total_samples init_samples hk
    (by simpa using hgood) (by simpa using hbad)
  simp [benchmark_iteration, collect_samples, h, exit_tuple]

/-- Witness for C4 (amended): a window whose very first system-info call
fails yields the `"NO_DATA"` verdict. -/
theorem benchmark_iteration_abort_verdict_witness :
    benchmark_iteration (fun _ => none) 525 =
      .ok ⟨none, none, none, false, none, some "NO_DATA"⟩ :=
  benchmark_iteration_abort_verdict (fun _ => none) 525 0 (by decide)
    (fun j hj => absurd hj (Nat.not_lt_zero j)) (Or.inl rfl)

/-- Counterexample to C4 as stated: a window aborted by an
over-temperature sample (70 degrees at the first reading) returns the
generic reason `"NO_DATA"`, not the specific reason `"TEMP_HIGH"` the
claim requires; the specific reason is only printed. -/
theorem benchmark_iteration_abort_reason_counterexample :
    benchmark_iteration (fun _ => some ⟨some 70, none, some 5000, some 500, some 10⟩) 525 =
      .ok ⟨none, none, none, false, none, some "NO_DATA"⟩ ∧
    validate ⟨some 70, none, some 5000, some 500, some 10⟩ = .invalid "TEMP_HIGH" ∧
    (some "NO_DATA" : Option String) ≠ some "TEMP_HIGH" := by
  refine ⟨rfl, by decide, by decide⟩

/-! ### The search loop of the entry script
(bitaxe_hashrate_benchmark.py lines 197-233) -/

/-- A persisted run result, as appended to `results` in the main loop. -/
structure RunResult where
  coreVoltage : Int
  frequency : Int
  averageHashRate : Rat
  averageTemperature : Rat
  efficiencyJTH : Rat
  averageVRTemp : Option Rat
deriving DecidableEq, Repr

/-- Outcome of one loop iteration: continue at a new candidate setting,
or leave the loop (`break`). -/
inductive StepNext where
  | cont (voltage frequency : Int)
  | halt
deriving DecidableEq, Repr

/-- The body of the main while loop for one benchmark verdict: the
optionally appended result and the next control action
(bitaxe_hashrate_benchmark.py lines 201-233). -/
def loop_step (voltage frequency : Int) (it : IterationResult) :
    Option RunResult × StepNext :=
  match it.avgHashrate, it.avgTemp, it.efficiencyJth with
  | some avg_hashrate, some avg_temp, some efficiency_jth =>
    (some ⟨voltage, frequency, avg_hashrate, avg_temp, efficiency_jth, it.avgVrTemp⟩,
      if it.hashrateOk then
        if frequency + FREQUENCY_INCREMENT ≤ MAX_ALLOWED_FREQUENCY then
          .cont voltage (frequency + FREQUENCY_INCREMENT)
        else .halt
      else
        if voltage + VOLTAGE_INCREMENT ≤ MAX_ALLOWED_VOLTAGE then
          .cont (voltage + VOLTAGE_INCREMENT) (frequency - FREQUENCY_INCREMENT)
        else .halt)
  | _, _, _ => (none, .halt)

/-- The main while loop, driven by the stream of verdicts the benchmark
service returns (one per iteration).  Accumulates `results` in order. -/
def main_loop : Int → Int → List RunResult → List IterationResult → List RunResult
  | _, _, acc, [] => acc
  | v, f, acc, it :: rest =>
    if v ≤ MAX_ALLOWED_VOLTAGE ∧ f ≤ MAX_ALLOWED_FREQUENCY then
      match loop_step v f it with
      | (r?, .cont v2 f2) => main_loop v2 f2 (acc ++ r?.toList) rest
      | (r?, .halt) => acc ++ r?.toList
    else acc

/-- Counterexample to C1 as stated: a completed window whose trimmed
average hash rate fell below tolerance (passed = false) is nevertheless
appended to the persisted results. -/
theorem failed_result_appended_counterexample :
    main_loop 1150 525 []
      [⟨some 50, some 50, some 1, false, none, none⟩] =
      [⟨1150, 525, 50, 50, 1, none⟩] ∧
    (IterationResult.hashrateOk ⟨some 50, some 50, some 1, false, none, none⟩) = false := by
  exact ⟨rfl, rfl⟩

/-- C1 (amended): a result is appended iff the evaluation produced
non-null numeric fields (a completed window), regardless of the passed
flag; and every persisted result originates from a verdict of the input
stream whose numeric fields were all present (aborted verdicts are never
persisted). -/
theorem results_append_iff_completed :
    (∀ (v f : Int) (it : IterationResult),
      (loop_step v f it).1 ≠ none ↔
        it.avgHashrate ≠ none ∧ it.avgTemp ≠ none ∧ it.efficiencyJth ≠ none) ∧
    (∀ (v f : Int) (acc : List RunResult) (its : List IterationResult) (r : RunResult),
      r ∈ main_loop v f acc its → r ∈ acc ∨
        ∃ it ∈ its, it.avgHashrate = some r.averageHashRate ∧
          it.avgTemp = some r.averageTemperature ∧
          it.efficiencyJth = some r.efficiencyJTH) := by
  constructor
  · intro v f it
    rcases it with ⟨h?, t?, e?, ok, vr?, er?⟩
    cases h? <;> cases t? <;> cases e? <;> simp [loop_step]
  · intro v f acc its
    induction its generalizing v f acc with
    | nil => intro r hr; exact Or.inl (by simpa [main_loop] using hr)
    | cons it rest ih =>
      intro r hr
      simp only [main_loop] at hr
      split at hr
      · rcases hstep : loop_step v f it with ⟨r?, next⟩
        have happend : ∀ s ∈ acc ++ r?.toList, s ∈ acc ∨
            ∃ it2 ∈ it :: rest, it2.avgHashrate = some s.averageHashRate ∧
              it2.avgTemp = some s.averageTemperature ∧
              it2.efficiencyJth = some s.efficiencyJTH := by
          intro s hs
          rcases List.mem_append.mp hs with hs | hs
          · exact Or.inl hs
          · rcases it with ⟨h?, t?, e?, ok, vr?, er?⟩
            cases h? <;> cases t? <;> cases e? <;>
              simp only [loop_step] at hstep <;>
              rcases hstep with ⟨rfl, -⟩ <;> simp_all
        cases next with
        | cont v2 f2 =>
          rw [hstep] at hr
          rcases ih v2 f2 (acc ++ r?.toList) r hr with hmem | ⟨it2, hit2, hfields⟩
          · rcases happend r hmem with h | ⟨it2, hit2, hfields⟩
            · exact Or.inl h
            · exact Or.inr ⟨it2, hit2, hfields⟩
          · exact Or.inr ⟨it2, List.mem_cons_of_mem _ hit2, hfields⟩
        | halt =>
          rw [hstep] at hr
          exact happend r hr
      · exact Or.inl hr

/-- Witness for C1 (amended): the provenance clause applied to a
one-verdict stream. -/
theorem results_append_iff_completed_witness :
    (⟨1180, 550, 60, 48, 2, none⟩ : RunResult) ∈ ([] : List RunResult) ∨
    ∃ it ∈ [(⟨some 60, some 48, some 2, true, none, none⟩ : IterationResult)],
      it.avgHashrate = some (60 : Rat) ∧ it.avgTemp = some (48 : Rat) ∧
      it.efficiencyJth = some (2 : Rat) :=
  results_append_iff_completed.2 1180 550 []
    [⟨some 60, some 48, some 2, true, none, none⟩] ⟨1180, 550, 60, 48, 2, none⟩
    (by decide)

/-! ### Specification-side transition relation (claim C5) -/

/-- The three transition rules claimed for the search controller, written
from the words of the specification. -/
inductive SpecNext where
  | next (voltage frequency : Int)
  | stopMaxFrequency
  | stopMaxVoltage
  | stopSafety
deriving DecidableEq, Repr

/-- The claimed next-candidate computation: on a completed passing window
raise frequency (or stop at the frequency bound); on a completed window
below tolerance raise voltage and retreat one frequency step (or stop at
the voltage bound); on any abort stop immediately. -/
def spec_transition (voltage frequency : Int) (it : IterationResult) : SpecNext :=
  if it.avgHashrate.isSome ∧ it.avgTemp.isSome ∧ it.efficiencyJth.isSome then
    if it.hashrateOk then
      if frequency + FREQUENCY_INCREMENT ≤ MAX_ALLOWED_FREQUENCY then
        .next voltage (frequency + FREQUENCY_INCREMENT)
      else .stopMaxFrequency
    else
      if voltage + VOLTAGE_INCREMENT ≤ MAX_ALLOWED_VOLTAGE then
        .next (voltage + VOLTAGE_INCREMENT) (frequency - FREQUENCY_INCREMENT)
      else .stopMaxVoltage
  else .stopSafety

/-- Forgetting the stop label of a claimed transition. -/
def spec_next_action : SpecNext → StepNext
  | .next v f => .cont v f
  | _ => .halt

theorem loop_step_action_eq (v f : Int) (it : IterationResult) :
    (loop_step v f it).2 = spec_next_action (spec_transition v f it) := by
  rcases it with ⟨h?, t?, e?, ok, vr?, er?⟩
  cases h? with
  | none => simp [loop_step, spec_transition, spec_next_action]
  | some a =>
    cases t? with
    | none => simp [loop_step, spec_transition, spec_next_action]
    | some b =>
      cases e? with
      | none => simp [loop_step, spec_transition, spec_next_action]
      | some c =>
        simp only [loop_step, spec_transition, Option.isSome_some, and_self, if_true]
        cases ok <;> split_ifs <;> rfl

/-- C5: the next candidate computed by the main loop body agrees with the
three claimed transition rules for every verdict, and on any of the three
stop outcomes the loop ends at once: no further verdict of the stream is
consumed and no further candidate is tried. -/
theorem loop_follows_spec_transition :
    (∀ (v f : Int) (it : IterationResult),
      (loop_step v f it).2 = spec_next_action (spec_transition v f it)) ∧
    (∀ (v f : Int) (acc : List RunResult) (it : IterationResult)
      (rest : List IterationResult),
      spec_next_action (spec_transition v f it) = .halt →
      v ≤ MAX_ALLOWED_VOLTAGE → f ≤ MAX_ALLOWED_FREQUENCY →
      main_loop v f acc (it :: rest) = acc ++ ((loop_step v f it).1).toList) := by
  refine ⟨loop_step_action_eq, ?_⟩
  intro v f acc it rest hhalt hv hf
  have h2 : (loop_step v f it).2 = .halt := by
    rw [loop_step_action_eq]; exact hhalt
  simp only [main_loop]
  rw [if_pos (And.intro hv hf)]
  rcases hstep : loop_step v f it with ⟨r?, next⟩
  rw [hstep] at h2
  cases next with
  | cont v2 f2 => exact absurd h2 (by simp)
  | halt => rfl

/-- Witness for C5: the stop clause applied to an aborted verdict: the
loop halts with no result appended and the remaining stream unread. -/
theorem loop_follows_spec_transition_witness :
    main_loop 1150 525 []
      [⟨none, none, none, false, none, some "NO_DATA"⟩,
       ⟨some 60, some 48, some 2, true, none, none⟩] =
      [] ++ ((loop_step 1150 525 ⟨none, none, none, false, none, some "NO_DATA"⟩).1).toList :=
  loop_follows_spec_transition.2 1150 525 []
    ⟨none, none, none, false, none, some "NO_DATA"⟩
    [⟨some 60, some 48, some 2, true, none, none⟩]
    (by decide) (by decide) (by decide)

/-! ### Finalization protocol (claim C2)
(bitaxe_hashrate_benchmark.py: handle_sigint lines 54-75, except block
lines 237-245, finally block lines 246-256).  The state tracks the two
global flags and counts how many times the finalize path invokes the
device-apply (`set_system_settings`, via `reset_to_best_setting` or
directly) and the result persist (`save_results`). -/

structure FinalizeState where
  system_reset_done : Bool
  handling_interrupt : Bool
  applyCount : Nat
  persistCount : Nat
deriving DecidableEq, Repr

def init_finalize_state : FinalizeState := ⟨false, false, 0, 0⟩

/-- One invocation of `set_system_settings` (both the best-result branch
of `reset_to_best_setting` and the default branch call it exactly once). -/
def apply_settings_effect (s : FinalizeState) : FinalizeState :=
  { s with applyCount := s.applyCount + 1 }

/-- One invocation of `save_results`. -/
def save_results_effect (s : FinalizeState) : FinalizeState :=
  { s with persistCount := s.persistCount + 1 }

/-- The shared body of every finalize path: reset to the best result and
save when results exist, otherwise apply the default setting. -/
def finalize_body (resultsNonempty : Bool) (s : FinalizeState) : FinalizeState :=
  if resultsNonempty then save_results_effect (apply_settings_effect s)
  else apply_settings_effect s

/-- The `except Exception` handler (lines 237-245): finalizes without
touching `SYSTEM_RESET_DONE`. -/
def except_block (resultsNonempty : Bool) (s : FinalizeState) : FinalizeState :=
  finalize_body resultsNonempty s

/-- The `finally` block (lines 246-256): finalizes only when
`SYSTEM_RESET_DONE` is still unset, then sets it. -/
def finally_block (resultsNonempty : Bool) (s : FinalizeState) : FinalizeState :=
  if s.system_reset_done then s
  else { finalize_body resultsNonempty s with system_reset_done := true }

/-- `handle_sigint` (lines 54-75): re-entrancy guard, finalize, set the
flags, exit. -/
def handle_sigint (resultsNonempty : Bool) (s : FinalizeState) : FinalizeState :=
  if s.handling_interrupt || s.system_reset_done then s
  else
    { finalize_body resultsNonempty { s with handling_interrupt := true } with
      system_reset_done := true, handling_interrupt := false }

/-- How a run of the entry script can leave the main loop. -/
inductive ExitPath where
  | normal
  | fault
  | interrupt
deriving DecidableEq, Repr

/-- The finalization code executed on each exit path: a normal loop exit
runs only the finally block; an unexpected fault runs the except block
and then the finally block; an interrupt signal runs the handler (which
exits the process; the finally block then sees the flag set). -/
def run_finalization (p : ExitPath) (resultsNonempty : Bool) : FinalizeState :=
  match p with
  | .normal => finally_block resultsNonempty init_finalize_state
  | .fault => finally_block resultsNonempty
      (except_block resultsNonempty init_finalize_state)
  | .interrupt => finally_block resultsNonempty
      (handle_sigint resultsNonempty init_finalize_state)

/-- C2 evaluated on the failing exit path: after an unexpected runtime
fault with results present, the device-apply and persist operations each
execute twice (the except block finalizes without setting
`SYSTEM_RESET_DONE`, so the finally block finalizes again), while the
normal and interrupt paths perform them exactly once; so the
exactly-once finalization guarantee of the claim fails on the fault
path. -/
theorem finalization_runs_twice_on_fault :
    (run_finalization .fault true).applyCount = 2 ∧
    (run_finalization .fault true).persistCount = 2 ∧
    (run_finalization .fault false).applyCount = 2 ∧
    (run_finalization .normal true).applyCount = 1 ∧
    (run_finalization .normal true).persistCount = 1 ∧
    (run_finalization .interrupt true).applyCount = 1 ∧
    (run_finalization .interrupt true).persistCount = 1 ∧
    (run_finalization .interrupt false).applyCount = 1 ∧
    (run_finalization .normal false).applyCount = 1 :=
  ⟨rfl, rfl, rfl, rfl, rfl, rfl, rfl, rfl, rfl⟩

/-! ### Best-setting selection and result ranking (claims C8, C9)
(bitaxe_hashrate_benchmark.py `reset_to_best_setting` lines 144-158,
src/services/results_service.py `_format_results` lines 26-46).
Python `sorted(..., key=..., reverse=True)` is a stable sort; it is
modelled by `List.mergeSort`, which is stable in the same sense. -/

/-- `sorted(results, key=lambda x: x["averageHashRate"], reverse=True)`. -/
def sort_desc_by_hashrate (rs : List RunResult) : List RunResult :=
  rs.mergeSort (fun a b => decide (b.averageHashRate ≤ a.averageHashRate))

/-- `sorted(results, key=lambda x: x["efficiencyJTH"])`. -/
def sort_asc_by_efficiency (rs : List RunResult) : List RunResult :=
  rs.mergeSort (fun a b => decide (a.efficiencyJTH ≤ b.efficiencyJTH))

/-- `reset_to_best_setting`: the `(coreVoltage, frequency)` pair passed
to `set_system_settings`; defaults are the device-baseline globals. -/
def reset_to_best_setting (defaultVoltage defaultFrequency : Int)
    (rs : List RunResult) : Int × Int :=
  if rs.isEmpty then (defaultVoltage, defaultFrequency)
  else
    match (sort_desc_by_hashrate rs).head? with
    | some best => (best.coreVoltage, best.frequency)
    | none => (defaultVoltage, defaultFrequency)

theorem find?_eq_head?_filter {α : Type} (p : α → Bool) (l : List α) :
    l.find? p = (l.filter p).head? := by
  induction l with
  | nil => rfl
  | cons a t ih =>
    cases h : p a with
    | true =>
      rw [List.find?_cons_of_pos t h, List.filter_cons_of_pos h, List.head?_cons]
    | false =>
      rw [List.find?_cons_of_neg t (by simp [h]), List.filter_cons_of_neg (by simp [h]), ih]

theorem head_mergeSort_forall {α : Type} (le : α → α → Bool)
    (htrans : ∀ a b c, le a b → le b c → le a c)
    (htotal : ∀ a b, le a b || le b a)
    (l : List α) (x : α) (t : List α) (hs : l.mergeSort le = x :: t) :
    x ∈ l ∧ ∀ r ∈ l, le x r := by
  constructor
  · exact (List.mem_mergeSort).mp (hs ▸ List.mem_cons_self x t)
  · intro r hr
    have hr2 : r ∈ x :: t := hs ▸ (List.mem_mergeSort).mpr hr
    rcases List.mem_cons.mp hr2 with rfl | hrt
    · have h0 := htotal r r
      rwa [Bool.or_self] at h0
    · have hp := List.sorted_mergeSort htrans htotal l
      rw [hs] at hp
      exact (List.pairwise_cons.mp hp).1 r hrt

/-- The head of the stable descending sort by a key is the earliest
element of the original list attaining the maximal key. -/
theorem mergeSort_desc_head_find {α : Type} (k : α → Rat) (l : List α)
    (x : α) (t : List α)
    (hs : l.mergeSort (fun a b => decide (k b ≤ k a)) = x :: t) :
    l.find? (fun r => decide (k x ≤ k r)) = some x := by
  have htrans : ∀ a b c : α, (fun a b => decide (k b ≤ k a)) a b →
      (fun a b => decide (k b ≤ k a)) b c → (fun a b => decide (k b ≤ k a)) a c := by
    intro a b c hab hbc
    simp only [decide_eq_true_eq] at *
    exact le_trans hbc hab
  have htotal : ∀ a b : α, (fun a b => decide (k b ≤ k a)) a b ||
      (fun a b => decide (k b ≤ k a)) b a := by
    intro a b
    simp only [Bool.or_eq_true, decide_eq_true_eq]
    exact le_total (k b) (k a)
  obtain ⟨hmem, hmax⟩ := head_mergeSort_forall _ htrans htotal l x t hs
  have hties : ∀ a ∈ l.filter (fun r => decide (k x ≤ k r)),
      ∀ b ∈ l.filter (fun r => decide (k x ≤ k r)), decide (k b ≤ k a) = true := by
    intro a ha b hb
    obtain ⟨ha1, ha2⟩ := List.mem_filter.mp ha
    obtain ⟨hb1, hb2⟩ := List.mem_filter.mp hb
    simp only [decide_eq_true_eq] at ha2 hb2 ⊢
    have hka : k a = k x := le_antisymm (by simpa using hmax a ha1) ha2
    have hkb : k b = k x := le_antisymm (by simpa using hmax b hb1) hb2
    rw [hka, hkb]
  have hsub : List.Sublist (l.filter (fun r => decide (k x ≤ k r)))
      (l.mergeSort (fun a b => decide (k b ≤ k a))) :=
    List.sublist_mergeSort htrans htotal
      (List.pairwise_of_forall_mem_list hties) (List.filter_sublist l)
  have hsub2 : List.Sublist (l.filter (fun r => decide (k x ≤ k r)))
      ((l.mergeSort (fun a b => decide (k b ≤ k a))).filter (fun r => decide (k x ≤ k r))) := by
    have h2 := hsub.filter (fun r => decide (k x ≤ k r))
    simpa [List.filter_filter] using h2
  have hperm : List.Perm ((l.mergeSort (fun a b => decide (k b ≤ k a))).filter
      (fun r => decide (k x ≤ k r))) (l.filter (fun r => decide (k x ≤ k r))) :=
    (List.mergeSort_perm l _).filter _
  have heq : l.filter (fun r => decide (k x ≤ k r)) =
      (l.mergeSort (fun a b => decide (k b ≤ k a))).filter (fun r => decide (k x ≤ k r)) :=
    hsub2.eq_of_length hperm.length_eq.symm
  rw [find?_eq_head?_filter, heq, hs]
  simp [List.filter_cons]

/-- C8: at finalization, an empty results sequence yields the default
(device baseline) setting; otherwise the setting of a result attaining
the maximum average hash rate is applied, and that result is the first
such result in trial order. -/
theorem reset_applies_best_or_default (dV dF : Int) (rs : List RunResult) :
    (rs = [] → reset_to_best_setting dV dF rs = (dV, dF)) ∧
    (rs ≠ [] → ∃ best, best ∈ rs ∧
      (∀ r ∈ rs, r.averageHashRate ≤ best.averageHashRate) ∧
      rs.find? (fun r => decide (best.averageHashRate ≤ r.averageHashRate)) = some best ∧
      reset_to_best_setting dV dF rs = (best.coreVoltage, best.frequency)) := by
  constructor
  · rintro rfl; rfl
  · intro hne
    rcases hs : sort_desc_by_hashrate rs with - | ⟨x, t⟩
    · exfalso
      have hlen := congrArg List.length hs
      simp [sort_desc_by_hashrate] at hlen
      exact hne hlen
    · simp only [sort_desc_by_hashrate] at hs
      have htrans : ∀ a b c : RunResult,
          (fun a b : RunResult => decide (b.averageHashRate ≤ a.averageHashRate)) a b →
          (fun a b : RunResult => decide (b.averageHashRate ≤ a.averageHashRate)) b c →
          (fun a b : RunResult => decide (b.averageHashRate ≤ a.averageHashRate)) a c := by
        intro a b c hab hbc
        simp only [decide_eq_true_eq] at *
        exact le_trans hbc hab
      have htotal : ∀ a b : RunResult,
          (fun a b : RunResult => decide (b.averageHashRate ≤ a.averageHashRate)) a b ||
          (fun a b : RunResult => decide (b.averageHashRate ≤ a.averageHashRate)) b a := by
        intro a b
        simp only [Bool.or_eq_true, decide_eq_true_eq]
        exact le_total _ _
      obtain ⟨hmem, hmax⟩ := head_mergeSort_forall _ htrans htotal rs x t hs
      refine ⟨x, hmem, ?_, ?_, ?_⟩
      · intro r hr
        simpa using hmax r hr
      · exact mergeSort_desc_head_find (fun r => r.averageHashRate) rs x t hs
      · simp [reset_to_best_setting, hne, sort_desc_by_hashrate, hs]

/-- Witness for C8: on a two-result tie at hash rate 100, the applied
setting is that of the earliest of the two results. -/
theorem reset_applies_best_or_default_witness :
    ∃ best, best ∈ [(⟨1150, 525, 100, 50, 1, none⟩ : RunResult),
        ⟨1200, 550, 100, 52, 2, none⟩] ∧
      (∀ r ∈ [(⟨1150, 525, 100, 50, 1, none⟩ : RunResult),
        ⟨1200, 550, 100, 52, 2, none⟩], r.averageHashRate ≤ best.averageHashRate) ∧
      [(⟨1150, 525, 100, 50, 1, none⟩ : RunResult),
        ⟨1200, 550, 100, 52, 2, none⟩].find?
        (fun r => decide (best.averageHashRate ≤ r.averageHashRate)) = some best ∧
      reset_to_best_setting 1100 500
        [(⟨1150, 525, 100, 50, 1, none⟩ : RunResult),
          ⟨1200, 550, 100, 52, 2, none⟩] = (best.coreVoltage, best.frequency) :=
  (reset_applies_best_or_default 1100 500
    [⟨1150, 525, 100, 50, 1, none⟩, ⟨1200, 550, 100, 52, 2, none⟩]).2 (by decide)

/-- The document produced by `ResultsService._format_results`: the full
ordered result list plus the two ranked top-5 lists; the `Nat` of each
pair is the `rank` field produced by `enumerate(..., 1)`. -/
structure FormattedResults where
  all_results : List RunResult
  top_performers : List (Nat × RunResult)
  most_efficient : List (Nat × RunResult)
deriving DecidableEq, Repr

/-- `ResultsService._format_results` (src/services/results_service.py
lines 26-46). -/
def format_results (rs : List RunResult) : FormattedResults :=
  { all_results := rs,
    top_performers := List.enumFrom 1 ((sort_desc_by_hashrate rs).take 5),
    most_efficient := List.enumFrom 1 ((sort_asc_by_efficiency rs).take 5) }

theorem ranked_take_properties (le : RunResult → RunResult → Bool)
    (htrans : ∀ a b c, le a b → le b c → le a c)
    (htotal : ∀ a b, le a b || le b a)
    (rs : List RunResult) (hne : rs ≠ []) :
    (List.enumFrom 1 ((rs.mergeSort le).take 5)).length = min 5 rs.length ∧
    (List.enumFrom 1 ((rs.mergeSort le).take 5)).map Prod.fst =
      List.range' 1 (min 5 rs.length) ∧
    (List.enumFrom 1 ((rs.mergeSort le).take 5)).Pairwise (fun a b => le a.2 b.2) ∧
    ∃ x, (List.enumFrom 1 ((rs.mergeSort le).take 5)).head? = some (1, x) ∧
      x ∈ rs ∧ ∀ r ∈ rs, le x r := by
  have hlen : ((rs.mergeSort le).take 5).length = min 5 rs.length := by
    simp [List.length_take]
  refine ⟨?_, ?_, ?_, ?_⟩
  · simp [List.enumFrom_length, hlen]
  · rw [List.enumFrom_map_fst, hlen]
  · have hp : ((rs.mergeSort le).take 5).Pairwise (fun a b => le a b) :=
      (List.sorted_mergeSort htrans htotal rs).sublist (List.take_sublist 5 _)
    rw [← List.enumFrom_map_snd 1 ((rs.mergeSort le).take 5)] at hp
    exact List.pairwise_map.mp hp
  · rcases hsort : rs.mergeSort le with - | ⟨x, t⟩
    · exfalso
      have h0 := congrArg List.length hsort
      simp at h0
      exact hne h0
    · obtain ⟨hmem, hmax⟩ := head_mergeSort_forall le htrans htotal rs x t hsort
      exact ⟨x, rfl, hmem, hmax⟩

/-- C9: for every non-empty result sequence, the formatted document keeps
the full list, its `top_performers` holds at most five entries (exactly
`min 5 n`), ranked `1..k` and sorted by average hash rate descending with
the first entry attaining the maximum over all results, and its
`most_efficient` holds at most five entries ranked `1..k`, sorted by
efficiency ascending with the first entry attaining the minimum. -/
theorem format_results_ranking (rs : List RunResult) (hne : rs ≠ []) :
    (format_results rs).all_results = rs ∧
    (format_results rs).top_performers.length = min 5 rs.length ∧
    (format_results rs).most_efficient.length = min 5 rs.length ∧
    (format_results rs).top_performers.map Prod.fst =
      List.range' 1 (min 5 rs.length) ∧
    (format_results rs).most_efficient.map Prod.fst =
      List.range' 1 (min 5 rs.length) ∧
    (format_results rs).top_performers.Pairwise
      (fun a b => b.2.averageHashRate ≤ a.2.averageHashRate) ∧
    (format_results rs).most_efficient.Pairwise
      (fun a b => a.2.efficiencyJTH ≤ b.2.efficiencyJTH) ∧
    (∃ x, (format_results rs).top_performers.head? = some (1, x) ∧ x ∈ rs ∧
      ∀ r ∈ rs, r.averageHashRate ≤ x.averageHashRate) ∧
    (∃ y, (format_results rs).most_efficient.head? = some (1, y) ∧ y ∈ rs ∧
      ∀ r ∈ rs, y.efficiencyJTH ≤ r.efficiencyJTH) := by
  have htransH : ∀ a b c : RunResult,
      (fun a b : RunResult => decide (b.averageHashRate ≤ a.averageHashRate)) a b →
      (fun a b : RunResult => decide (b.averageHashRate ≤ a.averageHashRate)) b c →
      (fun a b : RunResult => decide (b.averageHashRate ≤ a.averageHashRate)) a c := by
    intro a b c hab hbc
    simp only [decide_eq_true_eq] at *
    exact le_trans hbc hab
  have htotalH : ∀ a b : RunResult,
      (fun a b : RunResult => decide (b.averageHashRate ≤ a.averageHashRate)) a b ||
      (fun a b : RunResult => decide (b.averageHashRate ≤ a.averageHashRate)) b a := by
    intro a b
    simp only [Bool.or_eq_true, decide_eq_true_eq]
    exact le_total _ _
  have htransE : ∀ a b c : RunResult,
      (fun a b : RunResult => decide (a.efficiencyJTH ≤ b.efficiencyJTH)) a b →
      (fun a b : RunResult => decide (a.efficiencyJTH ≤ b.efficiencyJTH)) b c →
      (fun a b : RunResult => decide (a.efficiencyJTH ≤ b.efficiencyJTH)) a c := by
    intro a b c hab hbc
    simp only [decide_eq_true_eq] at *
    exact le_trans hab hbc
  have htotalE : ∀ a b : RunResult,
      (fun a b : RunResult => decide (a.efficiencyJTH ≤ b.efficiencyJTH)) a b ||
      (fun a b : RunResult => decide (a.efficiencyJTH ≤ b.efficiencyJTH)) b a := by
    intro a b
    simp only [Bool.or_eq_true, decide_eq_true_eq]
    exact le_total _ _
  obtain ⟨hL1, hM1, hP1, x, hx1, hx2, hx3⟩ := ranked_take_properties _ htransH htotalH rs hne
  obtain ⟨hL2, hM2, hP2, y, hy1, hy2, hy3⟩ := ranked_take_properties _ htransE htotalE rs hne
  refine ⟨rfl, hL1, hL2, hM1, hM2, ?_, ?_, ⟨x, hx1, hx2, ?_⟩, ⟨y, hy1, hy2, ?_⟩⟩
  · exact hP1.imp (fun h => by simpa using h)
  · exact hP2.imp (fun h => by simpa using h)
  · intro r hr
    simpa using hx3 r hr
  · intro r hr
    simpa using hy3 r hr

/-- Witness for C9: the ranking theorem applied to a concrete
three-result run. -/
theorem format_results_ranking_witness :
    (format_results [(⟨1150, 525, 80, 50, 3, none⟩ : RunResult),
        ⟨1150, 550, 90, 51, 2, none⟩, ⟨1170, 550, 85, 52, 4, none⟩]).all_results =
      [(⟨1150, 525, 80, 50, 3, none⟩ : RunResult),
        ⟨1150, 550, 90, 51, 2, none⟩, ⟨1170, 550, 85, 52, 4, none⟩] ∧
    (format_results [(⟨1150, 525, 80, 50, 3, none⟩ : RunResult),
        ⟨1150, 550, 90, 51, 2, none⟩, ⟨1170, 550, 85, 52, 4, none⟩]).top_performers.length =
      min 5 ([(⟨1150, 525, 80, 50, 3, none⟩ : RunResult),
        ⟨1150, 550, 90, 51, 2, none⟩, ⟨1170, 550, 85, 52, 4, none⟩].length) ∧
    (format_results [(⟨1150, 525, 80, 50, 3, none⟩ : RunResult),
        ⟨1150, 550, 90, 51, 2, none⟩, ⟨1170, 550, 85, 52, 4, none⟩]).most_efficient.length =
      min 5 ([(⟨1150, 525, 80, 50, 3, none⟩ : RunResult),
        ⟨1150, 550, 90, 51, 2, none⟩, ⟨1170, 550, 85, 52, 4, none⟩].length) :=
  ⟨(format_results_ranking [⟨1150, 525, 80, 50, 3, none⟩, ⟨1150, 550, 90, 51, 2, none⟩,
      ⟨1170, 550, 85, 52, 4, none⟩] (by decide)).1,
   (format_results_ranking [⟨1150, 525, 80, 50, 3, none⟩, ⟨1150, 550, 90, 51, 2, none⟩,
      ⟨1170, 550, 85, 52, 4, none⟩] (by decide)).2.1,
   (format_results_ranking [⟨1150, 525, 80, 50, 3, none⟩, ⟨1150, 550, 90, 51, 2, none⟩,
      ⟨1170, 550, 85, 52, 4, none⟩] (by decide)).2.2.1⟩

end Bitaxe
